import Mathlib

/-!
Verification of the bytecode virtual machine in
`src/listing/ch08.function/src/vm.rs` (a Lua-family VM core).

Shallow embedding conventions:

* `i64` is modelled as `Int` with explicit two's-complement wrap-around
  (`wrap64`); `usize` as `Nat` with wrap-around subtraction where the Rust
  code can underflow.  Arithmetic follows Rust release-profile semantics:
  `+`, `-`, `*`, `<<`, unary `-` wrap; `/` and `%` panic (here: `Except.error`)
  on a zero divisor and on `i64::MIN / -1` (Rust checks these in every
  profile).
* `f64` payloads are modelled by their exact rational value (`Rat`).
  Comparisons, `floor`, `ceil`, `trunc` and `as i64` casts of an IEEE-754
  binary64 value are exact functions of that rational value, so they are
  embedded concretely.  The operations whose *result* is rounded
  (`+ - * / %` on floats, `powf`, `i as f64`) and the host's float
  formatting are collected in the parameter structure `FRound`; no claim
  below depends on their values.  NaN / infinities are outside this model;
  no claim involves them.
* Panics (`panic!`, `todo!`, `unwrap` on `None`, out-of-bounds slice
  indexing / draining) are `Except.error`.
* `Rc<RefCell<Table>>` sharing is modelled by a heap (`ExeState.heap`) of
  `Table`s addressed by `Value.TableRef` indices.
* The three string representations (`ShortStr`/`MidStr`/`LongStr`) compare
  bytewise (spec section 3.1), so they are merged into one `Value.Str`.
* Code of the repository that is not under `src/` (`value.rs`, `parse.rs`,
  `bytecode.rs`, `utils.rs`) is modelled from the spec where needed; each
  such definition carries a `Modelled from the spec:` doc comment.
-/

set_option maxHeartbeats 1000000

namespace LuaVM

/-! ## 64-bit machine arithmetic model -/

/-- `2^63`, the magnitude of `i64::MIN`. -/
def two63 : Int := 9223372036854775808

/-- `2^64`, the modulus of 64-bit wrap-around arithmetic. -/
def two64 : Int := 18446744073709551616

/-- `i64::MIN`. -/
def minI64 : Int := -two63

/-- `i64::MAX`. -/
def maxI64 : Int := two63 - 1

/-- Two's-complement wrap of an integer into the `i64` range (Rust
release-profile overflow behaviour of `+`, `-`, `*`, `<<`, unary `-`). -/
def wrap64 (x : Int) : Int := (x + two63) % two64 - two63

/-- A `usize` value of an `i64` (`i as usize`): a wrapping cast. -/
def intAsUsize (i : Int) : Nat := (i % two64).toNat

/-- Wrap-around `usize` subtraction (Rust release-profile behaviour of
`a - b` on `usize`). -/
def usizeSubWrap (a b : Nat) : Nat := (((a : Int) - (b : Int)) % two64).toNat

/-- Saturate an integer into the `i64` range (the clamping part of Rust's
float-to-int `as` cast). -/
def satI64 (x : Int) : Int := max minI64 (min maxI64 x)

/-! ## Exact float operations (on the rational value of a finite f64) -/

/-- Truncation toward zero of a rational (the rounding part of Rust's
float-to-int `as` cast). -/
def ratTrunc (q : Rat) : Int := q.num.tdiv q.den

/-- Floor of a rational; `f64::floor` is exact, so this is the value of
`limit.floor()`. -/
def ratFloorI (q : Rat) : Int := q.num.fdiv q.den

/-- Ceiling of a rational; `f64::ceil` is exact. -/
def ratCeilI (q : Rat) : Int := -((-q.num).fdiv q.den)

/-- Rust's `f as i64` on a finite float: truncate toward zero, then
saturate into the `i64` range. -/
def f64AsI64 (q : Rat) : Int := satI64 (ratTrunc q)

/-! ## Numeric for-loop helpers (vm.rs lines 869-901) -/

/-- Embeds `for_check` (vm.rs lines 869-875), generic over `PartialOrd`
like the source; used at `Int` (integer loops) and `Rat` (float loops). -/
def for_check {α : Type} [LinearOrder α] (i limit : α) (is_step_positive : Bool) : Bool :=
  if is_step_positive then i ≤ limit else limit ≤ i

/-- Embeds `for_int_limit` (vm.rs lines 877-901).  The `&mut i64`
out-parameter `i` is made explicit: the result is `(limit', i')`.
`i64::MIN as f64` is exactly `-2^63`; `i64::MAX as f64` rounds up to
`2^63`, so the negative-step guard `limit > i64::MAX as f64` is
`2^63 < limit`.  `limit.floor() as i64` / `limit.ceil() as i64` are the
saturating casts `f64AsI64 ∘ floor/ceil`. -/
def for_int_limit (limit : Rat) (is_step_positive : Bool) (i : Int) : Int × Int :=
  if is_step_positive then
    if limit < ((minI64 : Int) : Rat) then
      (-1, 0)
    else
      (satI64 (ratFloorI limit), i)
  else
    if (((two63 : Int) : Rat)) < limit then
      (1, 0)
    else
      (satI64 (ratCeilI limit), i)

/-- One integer-case iteration of the `ForLoop` arm (vm.rs lines 219-227):
`i := i + step` (wrapping `i64` addition in release profile); if
`for_check` passes the loop continues with the new counter (`some`),
otherwise it exits (`none`). -/
def forLoopStepInt (i limit step : Int) : Option Int :=
  let j := wrap64 (i + step)
  if for_check j limit (decide (0 < step)) then some j else none

/-- Iterated integer `ForLoop` (the back-edge of an integer numeric for
loop), with fuel: `true` means the loop exited within the given number of
iterations. -/
def forLoopRun : Nat → Int → Int → Int → Bool
  | 0, _, _, _ => false
  | Nat.succ fuel, i, limit, step =>
    match forLoopStepInt i limit step with
    | none => true
    | some j => forLoopRun fuel j limit step

/-! ## Data model -/

/-- Runtime failure of the VM: `rtErr` embeds every `panic!` / `unwrap`
failure / out-of-bounds slice operation, `metaTodo` the `todo!("meta")`
markers, `fuelOut` exhaustion of the interpreter fuel (not a behaviour of
the source, only of the embedding). -/
inductive Err where
  | rtErr
  | metaTodo
  | fuelOut
deriving DecidableEq, Repr

/-- The host (Rust) functions installed in this file: only `lib_print`
(vm.rs lines 13-20). -/
inductive RustFn where
  | print
deriving DecidableEq, Repr

/-- Modelled from the spec: `MULTRET` lives in `parse.rs`, which is not
part of `src/`; per spec section 9 the sentinel is `u8::MAX`. -/
def MULTRET : Nat := 255

/-- The instruction set dispatched by `ExeState::execute` (vm.rs lines
56-614).  `bytecode.rs` is not part of `src/`; operand layout is taken
from spec section 6.3: register operands and short immediates are 8-bit
(here `Nat`), jump offsets signed 16-bit (here `Int` where the source
casts them with `as isize`, `Nat` where it uses `as usize` directly), the
`LoadInt` immediate signed 16-bit (here `Int`). -/
inductive ByteCode where
  | GetGlobal (dst name : Nat)
  | SetGlobal (name src : Nat)
  | SetGlobalConst (name src : Nat)
  | LoadConst (dst c : Nat)
  | LoadNil (dst n : Nat)
  | LoadBool (dst : Nat) (b : Bool)
  | LoadInt (dst : Nat) (i : Int)
  | Move (dst src : Nat)
  | NewTable (dst narray nmap : Nat)
  | SetInt (t i v : Nat)
  | SetIntConst (t i v : Nat)
  | SetField (t k v : Nat)
  | SetFieldConst (t k v : Nat)
  | SetTable (t k v : Nat)
  | SetTableConst (t k v : Nat)
  | SetList (t n : Nat)
  | GetInt (dst t k : Nat)
  | GetField (dst t k : Nat)
  | GetTable (dst t k : Nat)
  | TestAndJump (icondition : Nat) (jmp : Int)
  | TestOrJump (icondition : Nat) (jmp : Int)
  | TestAndSetJump (dst icondition jmp : Nat)
  | TestOrSetJump (dst icondition jmp : Nat)
  | Jump (jmp : Int)
  | ForPrepare (dst jmp : Nat)
  | ForLoop (dst jmp : Nat)
  | Call (func narg want_nret : Nat)
  | CallSet (dst func narg : Nat)
  | Return (iret nret : Nat)
  | VarArgs (dst want : Nat)
  | Neg (dst src : Nat)
  | Not (dst src : Nat)
  | BitNot (dst src : Nat)
  | Len (dst src : Nat)
  | Add (dst a b : Nat)
  | AddConst (dst a b : Nat)
  | AddInt (dst a i : Nat)
  | Sub (dst a b : Nat)
  | SubConst (dst a b : Nat)
  | SubInt (dst a i : Nat)
  | Mul (dst a b : Nat)
  | MulConst (dst a b : Nat)
  | MulInt (dst a i : Nat)
  | Mod (dst a b : Nat)
  | ModConst (dst a b : Nat)
  | ModInt (dst a i : Nat)
  | Idiv (dst a b : Nat)
  | IdivConst (dst a b : Nat)
  | IdivInt (dst a i : Nat)
  | Div (dst a b : Nat)
  | DivConst (dst a b : Nat)
  | DivInt (dst a i : Nat)
  | Pow (dst a b : Nat)
  | PowConst (dst a b : Nat)
  | PowInt (dst a i : Nat)
  | BitAnd (dst a b : Nat)
  | BitAndConst (dst a b : Nat)
  | BitAndInt (dst a i : Nat)
  | BitOr (dst a b : Nat)
  | BitOrConst (dst a b : Nat)
  | BitOrInt (dst a i : Nat)
  | BitXor (dst a b : Nat)
  | BitXorConst (dst a b : Nat)
  | BitXorInt (dst a i : Nat)
  | ShiftL (dst a b : Nat)
  | ShiftLConst (dst a b : Nat)
  | ShiftLInt (dst a i : Nat)
  | ShiftR (dst a b : Nat)
  | ShiftRConst (dst a b : Nat)
  | ShiftRInt (dst a i : Nat)
  | Equal (a b : Nat) (r : Bool)
  | EqualConst (a b : Nat) (r : Bool)
  | EqualInt (a : Nat) (i : Int) (r : Bool)
  | NotEq (a b : Nat) (r : Bool)
  | NotEqConst (a b : Nat) (r : Bool)
  | NotEqInt (a : Nat) (i : Int) (r : Bool)
  | LesEq (a b : Nat) (r : Bool)
  | LesEqConst (a b : Nat) (r : Bool)
  | LesEqInt (a : Nat) (i : Int) (r : Bool)
  | GreEq (a b : Nat) (r : Bool)
  | GreEqConst (a b : Nat) (r : Bool)
  | GreEqInt (a : Nat) (i : Int) (r : Bool)
  | Less (a b : Nat) (r : Bool)
  | LessConst (a b : Nat) (r : Bool)
  | LessInt (a : Nat) (i : Int) (r : Bool)
  | Greater (a b : Nat) (r : Bool)
  | GreaterConst (a b : Nat) (r : Bool)
  | GreaterInt (a : Nat) (i : Int) (r : Bool)
  | SetFalseSkip (dst : Nat)
  | Concat (dst a b : Nat)
  | ConcatConst (dst a b : Nat)
  | ConcatInt (dst a i : Nat)

/-- The tagged value model (`value.rs` is not part of `src/`; the variant
list is spec section 3.1).  `ShortStr`/`MidStr`/`LongStr` are merged into
`Str` (they compare bytewise).  `Table` is a reference into
`ExeState.heap` (the `Rc<RefCell<Table>>` store).  `LuaFunction` carries
the four `FuncProto` fields inline (byte codes, constants, `nparam`,
`has_varargs`). -/
inductive Value where
  | Nil
  | Boolean (b : Bool)
  | Integer (i : Int)
  | Float (f : Rat)
  | Str (s : String)
  | TableRef (idx : Nat)
  | RustFunction (f : RustFn)
  | LuaFunction (byte_codes : List ByteCode) (constants : List Value)
      (nparam : Nat) (has_varargs : Bool)

instance : Inhabited Value := ⟨Value.Nil⟩

/-- The function prototype record (spec section 3.3; produced by the
parser, consumed read-only by `execute`). -/
structure FuncProto where
  byte_codes : List ByteCode
  constants : List Value
  nparam : Nat
  has_varargs : Bool

/-- A table: dense array part plus map part (spec section 3.2; `Table` is
defined in `value.rs`, not part of `src/`).  `cap` tracks the Rust `Vec`
capacity of the array part, which `set_table_int` consults; the map is an
association list standing for the `HashMap`. -/
structure Table where
  array : List Value
  cap : Nat
  map : List (Value × Value)

/-- The execution state (vm.rs lines 24-28) plus the table heap realising
`Rc<RefCell<Table>>` sharing. -/
structure ExeState where
  globals : List (String × Value)
  stack : List Value
  base : Nat
  heap : List Table

/-- The IEEE-754 binary64 operations whose results are *rounded* (so not
exact functions of the operands' rational values), kept abstract: float
`+ - * / %`, `powf`, the `i as f64` cast, and the host's float
formatting.  Every theorem below holds for an arbitrary `FRound`. -/
structure FRound where
  fadd : Rat → Rat → Rat
  fsub : Rat → Rat → Rat
  fmul : Rat → Rat → Rat
  fdiv : Rat → Rat → Rat
  fmod : Rat → Rat → Rat
  fpow : Rat → Rat → Rat
  ofInt : Int → Rat
  ffmt : Rat → String

/-- An arbitrary concrete `FRound` instantiation, used only to evaluate
closed executions whose paths never consult a rounded operation — the
values of these fields are deliberately irrelevant. -/
def FR0 : FRound where
  fadd := fun a b => a + b
  fsub := fun a b => a - b
  fmul := fun a b => a * b
  fdiv := fun a b => a * b
  fmod := fun a b => a - b
  fpow := fun _ _ => 0
  ofInt := fun i => (i : Rat)
  ffmt := fun q => toString q.num

/-! ## Value operations (modelled from the spec; `value.rs` is absent) -/

/-- Modelled from the spec: `Value` equality (spec section 3.1,
`value.rs` is not part of `src/`): structural across numeric variants
(`Integer` vs `Float` promotes the integer with `i as f64`, here
`FR.ofInt`), bytewise on strings, pointer equality on tables (two
`TableRef`s to the same heap slot).  `Rc` pointer identity of function
values is not representable here, so function values compare unequal; no
claim depends on comparing functions. -/
def valueEq (FR : FRound) : Value → Value → Bool
  | .Nil, .Nil => true
  | .Boolean a, .Boolean b => a = b
  | .Integer a, .Integer b => a = b
  | .Integer a, .Float b => FR.ofInt a = b
  | .Float a, .Integer b => a = FR.ofInt b
  | .Float a, .Float b => a = b
  | .Str a, .Str b => a = b
  | .TableRef a, .TableRef b => a = b
  | _, _ => false

/-- Modelled from the spec: `Value::partial_cmp` (spec section 3.1):
numeric order with `Integer`/`Float` promoted to float, lexicographic
order on strings, `None` (a runtime type error at the use sites) on every
other pair. -/
def valueCmpOpt (FR : FRound) : Value → Value → Option Ordering
  | .Integer a, .Integer b => some (compare a b)
  | .Integer a, .Float b => some (compare (FR.ofInt a) b)
  | .Float a, .Integer b => some (compare a (FR.ofInt b))
  | .Float a, .Float b => some (compare a b)
  | .Str a, .Str b => some (compare a b)
  | _, _ => none

/-- Modelled from the spec: truthiness (spec section 3.1): `Nil` and
`Boolean(false)` are false, everything else true. -/
def truthy : Value → Bool
  | .Nil => false
  | .Boolean b => b
  | _ => true

/-- Modelled from the spec: the `(&Value).into() : &str` / `String`
conversions used for global names; a non-string name value panics. -/
def valueAsString : Value → Except Err String
  | .Str s => .ok s
  | _ => .error .rtErr

/-- Modelled from the spec: `utils::ftoi` (`utils.rs` is not part of
`src/`): converts an f64 to i64 only when it is exactly an integer in the
i64 range (spec section 4.2: bitwise operands "must be exactly
representable as integers, else error"). -/
def ftoi (q : Rat) : Option Int :=
  if q.den = 1 ∧ minI64 ≤ q.num ∧ q.num ≤ maxI64 then some q.num else none

/-! ## Association-list stand-ins for the hash maps -/

/-- Lookup in the map part of a table (`HashMap::get` keyed by `Value`). -/
def mapLookup (FR : FRound) : List (Value × Value) → Value → Option Value
  | [], _ => none
  | (k0, v0) :: rest, k => if valueEq FR k0 k then some v0 else mapLookup FR rest k

/-- Insert in the map part of a table (`HashMap::insert`: replace the
value of an existing key, else add the binding). -/
def mapInsert (FR : FRound) : List (Value × Value) → Value → Value → List (Value × Value)
  | [], k, v => [(k, v)]
  | (k0, v0) :: rest, k, v =>
    if valueEq FR k0 k then (k0, v) :: rest else (k0, v0) :: mapInsert FR rest k v

/-- Lookup in `globals : HashMap<String, Value>`. -/
def gGet : List (String × Value) → String → Option Value
  | [], _ => none
  | (k0, v0) :: rest, k => if k0 = k then some v0 else gGet rest k

/-- Insert in `globals`. -/
def gInsert : List (String × Value) → String → Value → List (String × Value)
  | [], k, v => [(k, v)]
  | (k0, v0) :: rest, k, v =>
    if k0 = k then (k0, v) :: rest else (k0, v0) :: gInsert rest k v

/-! ## Stack operations (vm.rs lines 621-639, 772-781) -/

/-- Embeds `set_vec` (vm.rs lines 772-781): overwrite below the length,
push at the length, grow with `Nil` beyond it. -/
def set_vec (vec : List Value) (i : Nat) (value : Value) : List Value :=
  if i < vec.length then vec.set i value
  else if i = vec.length then vec ++ [value]
  else (vec ++ List.replicate (i - vec.length) Value.Nil) ++ [value]

/-- Embeds `get_stack` (vm.rs lines 621-623); out-of-bounds indexing of
`self.stack[self.base + dst]` panics. -/
def get_stack (st : ExeState) (dst : Nat) : Except Err Value :=
  match st.stack.get? (st.base + dst) with
  | some v => .ok v
  | none => .error .rtErr

/-- Embeds `set_stack` (vm.rs lines 625-627). -/
def set_stack (st : ExeState) (dst : Nat) (v : Value) : ExeState :=
  { st with stack := set_vec st.stack (st.base + dst) v }

/-- Embeds `fill_stack` (vm.rs lines 629-639), exactly as written: when
`begin < len` it fills `stack[begin .. len]` (all the way to the current
length) with `Nil`, then resizes to `end` when `end > len`. -/
def fill_stack (st : ExeState) (bg num : Nat) : ExeState :=
  let b := st.base + bg
  let e := b + num
  let len := st.stack.length
  let s1 := if b < len then st.stack.take b ++ List.replicate (len - b) Value.Nil
            else st.stack
  let s2 := if e > len then s1 ++ List.replicate (e - len) Value.Nil else s1
  { st with stack := s2 }

/-- `Vec::drain(a .. b)` followed by dropping the drained values: removes
the slice, shifting the tail down; panics (`none`) when the range is
invalid. -/
def drainRange (l : List Value) (a b : Nat) : Option (List Value) :=
  if a ≤ b ∧ b ≤ l.length then some (l.take a ++ l.drop b) else none

/-- `Vec::drain(a .. b)` keeping the drained values: `(drained, rest)`. -/
def drainRangeTake (l : List Value) (a b : Nat) :
    Option (List Value × List Value) :=
  if a ≤ b ∧ b ≤ l.length then some ((l.drop a).take (b - a), l.take a ++ l.drop b)
  else none

/-- `Vec::swap_remove(i)`: replace slot `i` with the last element and pop;
panics (`none`) when `i` is out of bounds. -/
def swapRemove (l : List Value) (i : Nat) : Option (List Value) :=
  if i < l.length then some ((l.set i (l.getLastD Value.Nil)).dropLast) else none

/-! ## Table operations (vm.rs lines 641-691) -/

/-- Amortised `Vec` growth of the array part: Rust's `RawVec` doubles the
capacity (at least to the required length, minimum 4 for `Value`-sized
elements).  The exact growth policy is allocator/implementation detail;
no claim depends on it — `set_table_int` only reads the *current*
capacity. -/
def growCap (cap need : Nat) : Nat :=
  if need ≤ cap then cap else max (2 * cap) (max need 4)

/-- `table.array.capacity() as i64 * 2` with the two wrapping casts made
explicit. -/
def capTimes2 (cap : Nat) : Int := wrap64 (wrap64 (cap : Int) * 2)

/-- The table-level body of `set_table_int` (vm.rs lines 647-659, inside
the `borrow_mut`): place in the array part iff
`i > 0 && (i < 4 || i < capacity * 2)`, else insert in the map part. -/
def tableSetInt (FR : FRound) (tbl : Table) (i : Int) (value : Value) : Table :=
  if 0 < i ∧ (i < 4 ∨ i < capTimes2 tbl.cap) then
    let arr := set_vec tbl.array (i - 1).toNat value
    { tbl with array := arr, cap := growCap tbl.cap arr.length }
  else
    { tbl with map := mapInsert FR tbl.map (Value.Integer i) value }

/-- The table-level body of `get_table_int` (vm.rs lines 674-683): consult
`array.get(i as usize - 1)` — computed with the wrapping cast and
wrap-around subtraction — then fall back to the map, then `Nil`. -/
def tableGetInt (FR : FRound) (tbl : Table) (i : Int) : Value :=
  match tbl.array.get? (usizeSubWrap (intAsUsize i) 1) with
  | some v => v
  | none =>
    match mapLookup FR tbl.map (Value.Integer i) with
    | some v => v
    | none => Value.Nil

/-- Heap read of a shared table (`Rc<RefCell<Table>>` deref). -/
def getHeap (st : ExeState) (idx : Nat) : Except Err Table :=
  match st.heap.get? idx with
  | some t => .ok t
  | none => .error .rtErr

/-- Heap write-back of a shared table. -/
def setHeap (st : ExeState) (idx : Nat) (tbl : Table) : ExeState :=
  { st with heap := st.heap.set idx tbl }

/-- Embeds `set_table_int` (vm.rs lines 647-659). -/
def set_table_int (FR : FRound) (st : ExeState) (t : Nat) (i : Int) (value : Value) :
    Except Err ExeState :=
  match get_stack st t with
  | .error e => .error e
  | .ok (.TableRef idx) =>
    match getHeap st idx with
    | .error e => .error e
    | .ok tbl => .ok (setHeap st idx (tableSetInt FR tbl i value))
  | .ok _ => .error .rtErr

/-- Embeds `do_set_table` (vm.rs lines 660-666). -/
def do_set_table (FR : FRound) (st : ExeState) (t : Nat) (key value : Value) :
    Except Err ExeState :=
  match get_stack st t with
  | .error e => .error e
  | .ok (.TableRef idx) =>
    match getHeap st idx with
    | .error e => .error e
    | .ok tbl => .ok (setHeap st idx { tbl with map := mapInsert FR tbl.map key value })
  | .ok _ => .error .rtErr

/-- Embeds `set_table` (vm.rs lines 641-646): an `Integer` key routes to
`set_table_int` (float keys are a `TODO` in the source and fall to the
map). -/
def set_table (FR : FRound) (st : ExeState) (t : Nat) (key value : Value) :
    Except Err ExeState :=
  match key with
  | .Integer i => set_table_int FR st t i value
  | _ => do_set_table FR st t key value

/-- Embeds `get_table_int` (vm.rs lines 674-683). -/
def get_table_int (FR : FRound) (st : ExeState) (t : Nat) (i : Int) :
    Except Err Value :=
  match get_stack st t with
  | .error e => .error e
  | .ok (.TableRef idx) =>
    match getHeap st idx with
    | .error e => .error e
    | .ok tbl => .ok (tableGetInt FR tbl i)
  | .ok _ => .error .rtErr

/-- Embeds `do_get_table` (vm.rs lines 684-691). -/
def do_get_table (FR : FRound) (st : ExeState) (t : Nat) (key : Value) :
    Except Err Value :=
  match get_stack st t with
  | .error e => .error e
  | .ok (.TableRef idx) =>
    match getHeap st idx with
    | .error e => .error e
    | .ok tbl =>
      match mapLookup FR tbl.map key with
      | some v => .ok v
      | none => .ok Value.Nil
  | .ok _ => .error .rtErr

/-- Embeds `get_table` (vm.rs lines 668-673). -/
def get_table (FR : FRound) (st : ExeState) (t : Nat) (key : Value) :
    Except Err Value :=
  match key with
  | .Integer i => get_table_int FR st t i
  | _ => do_get_table FR st t key

/-! ## Arithmetic kernels (vm.rs lines 783-836) -/

/-- `|a,b| a+b` on `i64` (wrapping in release profile). -/
def rustAddI (a b : Int) : Except Err Int := .ok (wrap64 (a + b))

/-- `|a,b| a-b` on `i64`. -/
def rustSubI (a b : Int) : Except Err Int := .ok (wrap64 (a - b))

/-- `|a,b| a*b` on `i64`. -/
def rustMulI (a b : Int) : Except Err Int := .ok (wrap64 (a * b))

/-- `|a,b| a%b` on `i64`: Rust's `%` is the *truncated* remainder (sign of
the dividend); it panics on a zero divisor and on `i64::MIN % -1` in
every profile. -/
def rustModI (a b : Int) : Except Err Int :=
  if b = 0 ∨ (a = minI64 ∧ b = -1) then .error .rtErr else .ok (a.tmod b)

/-- `|a,b| a/b` on `i64`: Rust's `/` truncates toward zero; it panics on a
zero divisor and on `i64::MIN / -1` in every profile. -/
def rustDivI (a b : Int) : Except Err Int :=
  if b = 0 ∨ (a = minI64 ∧ b = -1) then .error .rtErr else .ok (a.tdiv b)

/-- The unsigned 64-bit image of an `i64` (two's complement bit pattern). -/
def toU64 (a : Int) : Nat := (a % two64).toNat

/-- Back from the 64-bit bit pattern to the signed value. -/
def ofU64 (n : Nat) : Int := if (n : Int) < two63 then (n : Int) else (n : Int) - two64

/-- `|a,b| a&b` on `i64` (bitwise over the two's-complement patterns). -/
def rustAndI (a b : Int) : Except Err Int := .ok (ofU64 (Nat.land (toU64 a) (toU64 b)))

/-- `|a,b| a|b` on `i64`. -/
def rustOrI (a b : Int) : Except Err Int := .ok (ofU64 (Nat.lor (toU64 a) (toU64 b)))

/-- `|a,b| a^b` on `i64`. -/
def rustXorI (a b : Int) : Except Err Int := .ok (ofU64 (Nat.xor (toU64 a) (toU64 b)))

/-- `|a,b| a<<b` on `i64`: the shift count is masked to its low 6 bits in
release profile. -/
def rustShlI (a b : Int) : Except Err Int := .ok (wrap64 (a * (2 : Int) ^ (toU64 b % 64)))

/-- `|a,b| a>>b` on `i64`: arithmetic right shift (floor division by a
power of two), count masked to the low 6 bits. -/
def rustShrI (a b : Int) : Except Err Int := .ok (a.fdiv ((2 : Int) ^ (toU64 b % 64)))

/-- Embeds `exe_binop` (vm.rs lines 783-791); the `todo!("meta")` arm is
`metaTodo`. -/
def exe_binop (FR : FRound) (v1 v2 : Value) (arith_i : Int → Int → Except Err Int)
    (arith_f : Rat → Rat → Rat) : Except Err Value :=
  match v1, v2 with
  | .Integer i1, .Integer i2 =>
    match arith_i i1 i2 with
    | .error e => .error e
    | .ok r => .ok (.Integer r)
  | .Integer i1, .Float f2 => .ok (.Float (arith_f (FR.ofInt i1) f2))
  | .Float f1, .Float f2 => .ok (.Float (arith_f f1 f2))
  | .Float f1, .Integer i2 => .ok (.Float (arith_f f1 (FR.ofInt i2)))
  | _, _ => .error .metaTodo

/-- Embeds `exe_binop_int` (vm.rs lines 792-798); the `u8` immediate is
zero-extended (`i2 as i64` / `i2 as f64`, the latter exact for a `u8`). -/
def exe_binop_int (FR : FRound) (v1 : Value) (i2 : Nat)
    (arith_i : Int → Int → Except Err Int) (arith_f : Rat → Rat → Rat) :
    Except Err Value :=
  match v1 with
  | .Integer i1 =>
    match arith_i i1 (i2 : Int) with
    | .error e => .error e
    | .ok r => .ok (.Integer r)
  | .Float f1 => .ok (.Float (arith_f f1 (i2 : Rat)))
  | _ => .error .metaTodo

/-- Embeds `exe_binop_f` (vm.rs lines 800-809). -/
def exe_binop_f (FR : FRound) (v1 v2 : Value) (arith_f : Rat → Rat → Rat) :
    Except Err Value :=
  match v1, v2 with
  | .Integer i1, .Integer i2 => .ok (.Float (arith_f (FR.ofInt i1) (FR.ofInt i2)))
  | .Integer i1, .Float f2 => .ok (.Float (arith_f (FR.ofInt i1) f2))
  | .Float f1, .Float f2 => .ok (.Float (arith_f f1 f2))
  | .Float f1, .Integer i2 => .ok (.Float (arith_f f1 (FR.ofInt i2)))
  | _, _ => .error .metaTodo

/-- Embeds `exe_binop_int_f` (vm.rs lines 810-817). -/
def exe_binop_int_f (FR : FRound) (v1 : Value) (i2 : Nat)
    (arith_f : Rat → Rat → Rat) : Except Err Value :=
  match v1 with
  | .Integer i1 => .ok (.Float (arith_f (FR.ofInt i1) (i2 : Rat)))
  | .Float f1 => .ok (.Float (arith_f f1 (i2 : Rat)))
  | _ => .error .metaTodo

/-- Embeds `exe_binop_i` (vm.rs lines 819-828); `ftoi(..).unwrap()`
panics on a non-exact float. -/
def exe_binop_i (v1 v2 : Value) (arith_i : Int → Int → Except Err Int) :
    Except Err Value :=
  match v1, v2 with
  | .Integer i1, .Integer i2 =>
    match arith_i i1 i2 with
    | .error e => .error e
    | .ok r => .ok (.Integer r)
  | .Integer i1, .Float f2 =>
    match ftoi f2 with
    | none => .error .rtErr
    | some i2 =>
      match arith_i i1 i2 with
      | .error e => .error e
      | .ok r => .ok (.Integer r)
  | .Float f1, .Float f2 =>
    match ftoi f1, ftoi f2 with
    | some i1, some i2 =>
      match arith_i i1 i2 with
      | .error e => .error e
      | .ok r => .ok (.Integer r)
    | _, _ => .error .rtErr
  | .Float f1, .Integer i2 =>
    match ftoi f1 with
    | none => .error .rtErr
    | some i1 =>
      match arith_i i1 i2 with
      | .error e => .error e
      | .ok r => .ok (.Integer r)
  | _, _ => .error .metaTodo

/-- Embeds `exe_binop_int_i` (vm.rs lines 829-836). -/
def exe_binop_int_i (v1 : Value) (i2 : Nat)
    (arith_i : Int → Int → Except Err Int) : Except Err Value :=
  match v1 with
  | .Integer i1 =>
    match arith_i i1 (i2 : Int) with
    | .error e => .error e
    | .ok r => .ok (.Integer r)
  | .Float f1 =>
    match ftoi f1 with
    | none => .error .rtErr
    | some i1 =>
      match arith_i i1 (i2 : Int) with
      | .error e => .error e
      | .ok r => .ok (.Integer r)
  | _ => .error .metaTodo

/-- Embeds `exe_concat` (vm.rs lines 838-867): numbers are formatted
(`FR.ffmt` for floats, decimal for integers), strings pass through, other
operands panic in the `(&Value).into::<&[u8]>()` conversion (modelled
from the spec, `value.rs` being absent). -/
def exe_concat (FR : FRound) (v1 v2 : Value) : Except Err Value :=
  let conv : Value → Except Err String := fun v =>
    match v with
    | .Integer i => .ok (toString i)
    | .Float f => .ok (FR.ffmt f)
    | v => valueAsString v
  match conv v1 with
  | .error e => .error e
  | .ok s1 =>
    match conv v2 with
    | .error e => .error e
    | .ok s2 => .ok (.Str (s1 ++ s2))

/-! ## Auxiliary register readers (vm.rs lines 731-756) -/

/-- Embeds `make_float` (vm.rs lines 731-742): coerce the register to a
float in place (`i as f64` is the rounded `FR.ofInt`), returning the
float; panics on non-numbers. -/
def make_float (FR : FRound) (st : ExeState) (dst : Nat) :
    Except Err (ExeState × Rat) :=
  match get_stack st dst with
  | .error e => .error e
  | .ok (.Float f) => .ok (st, f)
  | .ok (.Integer i) =>
    let f := FR.ofInt i
    .ok (set_stack st dst (.Float f), f)
  | .ok _ => .error .rtErr

/-- Embeds `read_int` (vm.rs lines 743-749). -/
def read_int (st : ExeState) (dst : Nat) : Except Err Int :=
  match get_stack st dst with
  | .ok (.Integer i) => .ok i
  | .ok _ => .error .rtErr
  | .error e => .error e

/-- Embeds `read_float` (vm.rs lines 750-756). -/
def read_float (st : ExeState) (dst : Nat) : Except Err Rat :=
  match get_stack st dst with
  | .ok (.Float f) => .ok f
  | .ok _ => .error .rtErr
  | .error e => .error e

/-- The shared operand conversion of the `LesEqInt`/`GreEqInt`/`LessInt`/
`GreaterInt` arms (vm.rs lines 521-525, 543-547, 565-569, 587-591): an
`Integer` passes through, a `Float` is converted with the truncating
`as i64` cast, anything else panics with "invalid compare". -/
def cmpIntOperand : Value → Except Err Int
  | .Integer i => .ok i
  | .Float f => .ok (f64AsI64 f)
  | _ => .error .rtErr

/-! ## Host functions and program counter arithmetic -/

/-- Embeds `lib_print` (vm.rs lines 13-20): reads its arguments, writes to
stdout (not modelled), mutates nothing, returns 0 values. -/
def rustCall : RustFn → ExeState → ExeState × Int
  | .print, st => (st, 0)

/-- `pc = (pc as isize + jmp) as usize` (vm.rs lines 152, 157, 175). -/
def pcJump (pc : Nat) (jmp : Int) : Nat := (((pc : Int) + jmp) % two64).toNat

/-- `pc -= jmp as usize` in the `ForLoop` arm (wrap-around `usize`
subtraction). -/
def pcSub (pc jmp : Nat) : Nat := usizeSubWrap pc jmp

/-! ## Call machinery and the dispatch loop (vm.rs lines 46-274, 695-729) -/

/-- Constant-pool read `proto.constants[k]` (panics when out of range). -/
def kGet (proto : FuncProto) (k : Nat) : Except Err Value :=
  match proto.constants.get? k with
  | some v => .ok v
  | none => .error .rtErr

/-- Result of one dispatched instruction: continue at the given pc (the
trailing `pc += 1` of the loop is applied by `runLoop`), or leave
`execute` with a return count. -/
inductive Step where
  | next (st : ExeState) (pc : Nat)
  | ret (st : ExeState) (n : Nat)

/-- The state carried by a `Step`. -/
def Step.state : Step → ExeState
  | .next st _ => st
  | .ret st _ => st

/-- The `match fv` of `call_function` (vm.rs lines 708-724), parametric
in the recursive `execute` used for a `LuaFunction` callee (`exec`;
`runLoop` passes `executeE` at one less fuel): a native function gets a
truncated stack and its `i32` result is the return count; a bytecode
function gets missing parameters `Nil`-filled and is executed. -/
def callDispatch (exec : FuncProto → ExeState → Except Err (ExeState × Nat))
    (st1 : ExeState) (nargE : Nat) (fv : Value) : Except Err (ExeState × Nat) :=
  match fv with
  | .RustFunction f =>
    let st2 := { st1 with stack := st1.stack.take (st1.base + nargE) }
    let pr := rustCall f st2
    .ok (pr.1, intAsUsize pr.2)
  | .LuaFunction bcs ks np hv =>
    let st2 := if nargE < np then fill_stack st1 nargE (np - nargE) else st1
    exec ⟨bcs, ks, np, hv⟩ st2
  | _ => .error .rtErr

/-- `self.base -= func as usize + 1` followed by returning `nret`
(vm.rs lines 726-728): the come-back of `call_function`. -/
def restoreBase (func : Nat) (pr : ExeState × Nat) : ExeState × Nat :=
  ({ pr.1 with base := pr.1.base - (func + 1) }, pr.2)

/-- Embeds `call_function` (vm.rs lines 695-729), continued: resolve the
callable, shift `base`, compute the effective argument count, dispatch
(`callDispatch` is the `match fv` of the source), and restore `base` by
the final `self.base -= func + 1`. -/
def call_function (FR : FRound) (exec : FuncProto → ExeState → Except Err (ExeState × Nat))
    (st : ExeState) (func narg : Nat) : Except Err (ExeState × Nat) :=
  match get_stack st func with
  | .error e => .error e
  | .ok fv =>
    let st1 : ExeState := { st with base := st.base + func + 1 }
    let nargE := if narg = MULTRET then usizeSubWrap st1.stack.length st1.base else narg
    match callDispatch exec st1 nargE fv with
    | .error e => .error e
    | .ok pr => .ok (restoreBase func pr)

/-- The loop head of `execute` (vm.rs lines 47-51): capture varargs by
draining `stack[base + nparam ..]` when the prototype has them. -/
def enterProto (proto : FuncProto) (st : ExeState) :
    Except Err (List Value × ExeState) :=
  if proto.has_varargs then
    let k := st.base + proto.nparam
    if k ≤ st.stack.length then
      .ok (st.stack.drop k, { st with stack := st.stack.take k })
    else .error .rtErr
  else .ok ([], st)

/-- The copy loop of the `VarArgs` arm (vm.rs lines 285-287):
`for i in 0..ncopy { set_stack(dst + i, varargs[i]) }`. -/
def varargsCopy (st : ExeState) (dst : Nat) (va : List Value) : Nat → Nat → ExeState
  | _, 0 => st
  | idx, Nat.succ n => varargsCopy (set_stack st (dst + idx) (va.getD idx Value.Nil)) dst va (idx + 1) n

/-- One dispatched instruction of `ExeState::execute` (the `match` at
vm.rs lines 56-614), parametric in the recursive executor `exec` used by
`Call`/`CallSet`.  `pc` is the current program counter; the loop's
unconditional `pc += 1` is applied by the caller (`runLoop`). -/
def execInstr (FR : FRound) (exec : FuncProto → ExeState → Except Err (ExeState × Nat))
    (proto : FuncProto) (va : List Value) (bc : ByteCode) (pc : Nat) (st : ExeState) :
    Except Err Step :=
  let binArm : Nat → Except Err Value → Except Err Step := fun dst r =>
    match r with
    | .error e => .error e
    | .ok v => .ok (.next (set_stack st dst v) pc)
  let cmpSkip : Bool → Except Err Step := fun skip =>
    .ok (.next st (if skip then pc + 1 else pc))
  match bc with
  | .GetGlobal dst name =>
    match kGet proto name with
    | .error e => .error e
    | .ok kv =>
      match valueAsString kv with
      | .error e => .error e
      | .ok s =>
        let v := (gGet st.globals s).getD Value.Nil
        .ok (.next (set_stack st dst v) pc)
  | .SetGlobal name src =>
    match kGet proto name with
    | .error e => .error e
    | .ok kv =>
      match valueAsString kv with
      | .error e => .error e
      | .ok s =>
        match get_stack st src with
        | .error e => .error e
        | .ok v => .ok (.next { st with globals := gInsert st.globals s v } pc)
  | .SetGlobalConst name src =>
    match kGet proto name with
    | .error e => .error e
    | .ok kv =>
      match valueAsString kv with
      | .error e => .error e
      | .ok s =>
        match kGet proto src with
        | .error e => .error e
        | .ok v => .ok (.next { st with globals := gInsert st.globals s v } pc)
  | .LoadConst dst c =>
    match kGet proto c with
    | .error e => .error e
    | .ok v => .ok (.next (set_stack st dst v) pc)
  | .LoadNil dst n => .ok (.next (fill_stack st dst n) pc)
  | .LoadBool dst b => .ok (.next (set_stack st dst (.Boolean b)) pc)
  | .LoadInt dst i => .ok (.next (set_stack st dst (.Integer i)) pc)
  | .Move dst src =>
    match get_stack st src with
    | .error e => .error e
    | .ok v => .ok (.next (set_stack st dst v) pc)
  | .NewTable dst narray _nmap =>
    let idx := st.heap.length
    let st1 := { st with heap := st.heap ++ [⟨[], narray, []⟩] }
    .ok (.next (set_stack st1 dst (.TableRef idx)) pc)
  | .SetInt t i v =>
    match get_stack st v with
    | .error e => .error e
    | .ok value =>
      match set_table_int FR st t (i : Int) value with
      | .error e => .error e
      | .ok st1 => .ok (.next st1 pc)
  | .SetIntConst t i v =>
    match kGet proto v with
    | .error e => .error e
    | .ok value =>
      match set_table_int FR st t (i : Int) value with
      | .error e => .error e
      | .ok st1 => .ok (.next st1 pc)
  | .SetField t k v =>
    match kGet proto k with
    | .error e => .error e
    | .ok key =>
      match get_stack st v with
      | .error e => .error e
      | .ok value =>
        match set_table FR st t key value with
        | .error e => .error e
        | .ok st1 => .ok (.next st1 pc)
  | .SetFieldConst t k v =>
    match kGet proto k with
    | .error e => .error e
    | .ok key =>
      match kGet proto v with
      | .error e => .error e
      | .ok value =>
        match set_table FR st t key value with
        | .error e => .error e
        | .ok st1 => .ok (.next st1 pc)
  | .SetTable t k v =>
    match get_stack st k with
    | .error e => .error e
    | .ok key =>
      match get_stack st v with
      | .error e => .error e
      | .ok value =>
        match set_table FR st t key value with
        | .error e => .error e
        | .ok st1 => .ok (.next st1 pc)
  | .SetTableConst t k v =>
    match get_stack st k with
    | .error e => .error e
    | .ok key =>
      match kGet proto v with
      | .error e => .error e
      | .ok value =>
        match set_table FR st t key value with
        | .error e => .error e
        | .ok st1 => .ok (.next st1 pc)
  | .SetList t n =>
    let ivalue := t + 1
    match get_stack st t with
    | .error e => .error e
    | .ok (.TableRef idx) =>
      match drainRangeTake st.stack ivalue (ivalue + n) with
      | none => .error .rtErr
      | some pr =>
        match getHeap st idx with
        | .error e => .error e
        | .ok tbl =>
          let arr := tbl.array ++ pr.1
          let st1 := setHeap { st with stack := pr.2 } idx
            { tbl with array := arr, cap := growCap tbl.cap arr.length }
          .ok (.next st1 pc)
    | .ok _ => .error .rtErr
  | .GetInt dst t k =>
    match get_table_int FR st t (k : Int) with
    | .error e => .error e
    | .ok v => .ok (.next (set_stack st dst v) pc)
  | .GetField dst t k =>
    match kGet proto k with
    | .error e => .error e
    | .ok key =>
      match get_table FR st t key with
      | .error e => .error e
      | .ok v => .ok (.next (set_stack st dst v) pc)
  | .GetTable dst t k =>
    match get_stack st k with
    | .error e => .error e
    | .ok key =>
      match get_table FR st t key with
      | .error e => .error e
      | .ok v => .ok (.next (set_stack st dst v) pc)
  | .TestAndJump icondition jmp =>
    match get_stack st icondition with
    | .error e => .error e
    | .ok v => .ok (.next st (if truthy v then pcJump pc jmp else pc))
  | .TestOrJump icondition jmp =>
    match get_stack st icondition with
    | .error e => .error e
    | .ok v => .ok (.next st (if truthy v then pc else pcJump pc jmp))
  | .TestAndSetJump dst icondition jmp =>
    match get_stack st icondition with
    | .error e => .error e
    | .ok v =>
      if truthy v then .ok (.next (set_stack st dst v) (pc + jmp))
      else .ok (.next st pc)
  | .TestOrSetJump dst icondition jmp =>
    match get_stack st icondition with
    | .error e => .error e
    | .ok v =>
      if truthy v then .ok (.next st pc)
      else .ok (.next (set_stack st dst v) (pc + jmp))
  | .Jump jmp => .ok (.next st (pcJump pc jmp))
  | .ForPrepare dst jmp =>
    match get_stack st dst, get_stack st (dst + 2) with
    | .error e, _ => .error e
    | _, .error e => .error e
    | .ok (.Integer i0), .ok (.Integer step) =>
      if step = 0 then .error .rtErr
      else
        match get_stack st (dst + 1) with
        | .error e => .error e
        | .ok (.Integer limit) =>
          if for_check i0 limit (decide (0 < step)) then .ok (.next st pc)
          else .ok (.next st (pc + jmp))
        | .ok (.Float flimit) =>
          let p := for_int_limit flimit (decide (0 < step)) i0
          let st1 := set_stack st (dst + 1) (.Integer p.1)
          if for_check p.2 p.1 (decide (0 < step)) then .ok (.next st1 pc)
          else .ok (.next st1 (pc + jmp))
        | .ok _ => .error .rtErr
    | .ok _, .ok _ =>
      match make_float FR st dst with
      | .error e => .error e
      | .ok pa =>
        match make_float FR pa.1 (dst + 1) with
        | .error e => .error e
        | .ok pb =>
          match make_float FR pb.1 (dst + 2) with
          | .error e => .error e
          | .ok pc1 =>
            if pc1.2 = 0 then .error .rtErr
            else if for_check pa.2 pb.2 (decide (0 < pc1.2)) then .ok (.next pc1.1 pc)
            else .ok (.next pc1.1 (pc + jmp))
  | .ForLoop dst jmp =>
    match get_stack st dst with
    | .error e => .error e
    | .ok (.Integer i) =>
      match read_int st (dst + 1) with
      | .error e => .error e
      | .ok limit =>
        match read_int st (dst + 2) with
        | .error e => .error e
        | .ok step =>
          match forLoopStepInt i limit step with
          | some j => .ok (.next (set_stack st dst (.Integer j)) (pcSub pc jmp))
          | none => .ok (.next st pc)
    | .ok (.Float f) =>
      match read_float st (dst + 1) with
      | .error e => .error e
      | .ok limit =>
        match read_float st (dst + 2) with
        | .error e => .error e
        | .ok step =>
          let j := FR.fadd f step
          if for_check j limit (decide (0 < step)) then
            .ok (.next (set_stack st dst (.Float j)) (pcSub pc jmp))
          else .ok (.next st pc)
    | .ok _ => .error .rtErr
  | .Call func narg want_nret =>
    match call_function FR exec st func narg with
    | .error e => .error e
    | .ok pr =>
      match drainRange pr.1.stack (pr.1.base + func) (usizeSubWrap pr.1.stack.length pr.2) with
      | none => .error .rtErr
      | some stk2 =>
        let st2 := { pr.1 with stack := stk2 }
        let st3 := if want_nret ≠ MULTRET ∧ pr.2 < want_nret
                   then fill_stack st2 pr.2 (want_nret - pr.2) else st2
        .ok (.next st3 pc)
  | .CallSet dst func narg =>
    match call_function FR exec st func narg with
    | .error e => .error e
    | .ok pr =>
      if pr.2 = 0 then .ok (.next (set_stack pr.1 dst Value.Nil) pc)
      else
        let st2 := if pr.2 > 1
                   then { pr.1 with stack := pr.1.stack.take (usizeSubWrap (pr.1.stack.length + 1) pr.2) }
                   else pr.1
        match swapRemove st2.stack (st2.base + dst) with
        | none => .error .rtErr
        | some stk => .ok (.next { st2 with stack := stk } pc)
  | .Return iret nret =>
    let ir := st.base + iret
    let st1 := if nret ≠ MULTRET then { st with stack := st.stack.take (ir + nret) } else st
    .ok (.ret st1 nret)
  | .VarArgs dst want =>
    let p : Nat × Nat :=
      if want = MULTRET then (va.length, 0)
      else if want > va.length then (va.length, want - va.length)
      else (want, 0)
    let st1 := varargsCopy st dst va 0 p.1
    let st2 := if p.2 > 0 then fill_stack st1 (dst + p.1) p.2 else st1
    .ok (.next st2 pc)
  | .Neg dst src =>
    match get_stack st src with
    | .error e => .error e
    | .ok (.Integer i) => .ok (.next (set_stack st dst (.Integer (wrap64 (-i)))) pc)
    | .ok (.Float f) => .ok (.next (set_stack st dst (.Float (-f))) pc)
    | .ok _ => .error .rtErr
  | .Not dst src =>
    match get_stack st src with
    | .error e => .error e
    | .ok v =>
      let r : Value :=
        match v with
        | .Nil => .Boolean true
        | .Boolean b => .Boolean (!b)
        | _ => .Boolean false
      .ok (.next (set_stack st dst r) pc)
  | .BitNot dst src =>
    match get_stack st src with
    | .error e => .error e
    | .ok (.Integer i) => .ok (.next (set_stack st dst (.Integer (-1 - i))) pc)
    | .ok _ => .error .rtErr
  | .Len dst src =>
    match get_stack st src with
    | .error e => .error e
    | .ok (.Str s) => .ok (.next (set_stack st dst (.Integer (s.utf8ByteSize : Int))) pc)
    | .ok (.TableRef idx) =>
      match getHeap st idx with
      | .error e => .error e
      | .ok tbl => .ok (.next (set_stack st dst (.Integer (tbl.array.length : Int))) pc)
    | .ok _ => .error .rtErr
  | .Add dst a b =>
    binArm dst (match get_stack st a, get_stack st b with
      | .ok v1, .ok v2 => exe_binop FR v1 v2 rustAddI FR.fadd
      | .error e, _ => .error e
      | _, .error e => .error e)
  | .AddConst dst a b =>
    binArm dst (match get_stack st a, kGet proto b with
      | .ok v1, .ok v2 => exe_binop FR v1 v2 rustAddI FR.fadd
      | .error e, _ => .error e
      | _, .error e => .error e)
  | .AddInt dst a i =>
    binArm dst (match get_stack st a with
      | .ok v1 => exe_binop_int FR v1 i rustAddI FR.fadd
      | .error e => .error e)
  | .Sub dst a b =>
    binArm dst (match get_stack st a, get_stack st b with
      | .ok v1, .ok v2 => exe_binop FR v1 v2 rustSubI FR.fsub
      | .error e, _ => .error e
      | _, .error e => .error e)
  | .SubConst dst a b =>
    binArm dst (match get_stack st a, kGet proto b with
      | .ok v1, .ok v2 => exe_binop FR v1 v2 rustSubI FR.fsub
      | .error e, _ => .error e
      | _, .error e => .error e)
  | .SubInt dst a i =>
    binArm dst (match get_stack st a with
      | .ok v1 => exe_binop_int FR v1 i rustSubI FR.fsub
      | .error e => .error e)
  | .Mul dst a b =>
    binArm dst (match get_stack st a, get_stack st b with
      | .ok v1, .ok v2 => exe_binop FR v1 v2 rustMulI FR.fmul
      | .error e, _ => .error e
      | _, .error e => .error e)
  | .MulConst dst a b =>
    binArm dst (match get_stack st a, kGet proto b with
      | .ok v1, .ok v2 => exe_binop FR v1 v2 rustMulI FR.fmul
      | .error e, _ => .error e
      | _, .error e => .error e)
  | .MulInt dst a i =>
    binArm dst (match get_stack st a with
      | .ok v1 => exe_binop_int FR v1 i rustMulI FR.fmul
      | .error e => .error e)
  | .Mod dst a b =>
    binArm dst (match get_stack st a, get_stack st b with
      | .ok v1, .ok v2 => exe_binop FR v1 v2 rustModI FR.fmod
      | .error e, _ => .error e
      | _, .error e => .error e)
  | .ModConst dst a b =>
    binArm dst (match get_stack st a, kGet proto b with
      | .ok v1, .ok v2 => exe_binop FR v1 v2 rustModI FR.fmod
      | .error e, _ => .error e
      | _, .error e => .error e)
  | .ModInt dst a i =>
    binArm dst (match get_stack st a with
      | .ok v1 => exe_binop_int FR v1 i rustModI FR.fmod
      | .error e => .error e)
  | .Idiv dst a b =>
    binArm dst (match get_stack st a, get_stack st b with
      | .ok v1, .ok v2 => exe_binop FR v1 v2 rustDivI FR.fdiv
      | .error e, _ => .error e
      | _, .error e => .error e)
  | .IdivConst dst a b =>
    binArm dst (match get_stack st a, kGet proto b with
      | .ok v1, .ok v2 => exe_binop FR v1 v2 rustDivI FR.fdiv
      | .error e, _ => .error e
      | _, .error e => .error e)
  | .IdivInt dst a i =>
    binArm dst (match get_stack st a with
      | .ok v1 => exe_binop_int FR v1 i rustDivI FR.fdiv
      | .error e => .error e)
  | .Div dst a b =>
    binArm dst (match get_stack st a, get_stack st b with
      | .ok v1, .ok v2 => exe_binop_f FR v1 v2 FR.fdiv
      | .error e, _ => .error e
      | _, .error e => .error e)
  | .DivConst dst a b =>
    binArm dst (match get_stack st a, kGet proto b with
      | .ok v1, .ok v2 => exe_binop_f FR v1 v2 FR.fdiv
      | .error e, _ => .error e
      | _, .error e => .error e)
  | .DivInt dst a i =>
    binArm dst (match get_stack st a with
      | .ok v1 => exe_binop_int_f FR v1 i FR.fdiv
      | .error e => .error e)
  | .Pow dst a b =>
    binArm dst (match get_stack st a, get_stack st b with
      | .ok v1, .ok v2 => exe_binop_f FR v1 v2 FR.fpow
      | .error e, _ => .error e
      | _, .error e => .error e)
  | .PowConst dst a b =>
    binArm dst (match get_stack st a, kGet proto b with
      | .ok v1, .ok v2 => exe_binop_f FR v1 v2 FR.fpow
      | .error e, _ => .error e
      | _, .error e => .error e)
  | .PowInt dst a i =>
    binArm dst (match get_stack st a with
      | .ok v1 => exe_binop_int_f FR v1 i FR.fpow
      | .error e => .error e)
  | .BitAnd dst a b =>
    binArm dst (match get_stack st a, get_stack st b with
      | .ok v1, .ok v2 => exe_binop_i v1 v2 rustAndI
      | .error e, _ => .error e
      | _, .error e => .error e)
  | .BitAndConst dst a b =>
    binArm dst (match get_stack st a, kGet proto b with
      | .ok v1, .ok v2 => exe_binop_i v1 v2 rustAndI
      | .error e, _ => .error e
      | _, .error e => .error e)
  | .BitAndInt dst a i =>
    binArm dst (match get_stack st a with
      | .ok v1 => exe_binop_int_i v1 i rustAndI
      | .error e => .error e)
  | .BitOr dst a b =>
    binArm dst (match get_stack st a, get_stack st b with
      | .ok v1, .ok v2 => exe_binop_i v1 v2 rustOrI
      | .error e, _ => .error e
      | _, .error e => .error e)
  | .BitOrConst dst a b =>
    binArm dst (match get_stack st a, kGet proto b with
      | .ok v1, .ok v2 => exe_binop_i v1 v2 rustOrI
      | .error e, _ => .error e
      | _, .error e => .error e)
  | .BitOrInt dst a i =>
    binArm dst (match get_stack st a with
      | .ok v1 => exe_binop_int_i v1 i rustOrI
      | .error e => .error e)
  | .BitXor dst a b =>
    binArm dst (match get_stack st a, get_stack st b with
      | .ok v1, .ok v2 => exe_binop_i v1 v2 rustXorI
      | .error e, _ => .error e
      | _, .error e => .error e)
  | .BitXorConst dst a b =>
    binArm dst (match get_stack st a, kGet proto b with
      | .ok v1, .ok v2 => exe_binop_i v1 v2 rustXorI
      | .error e, _ => .error e
      | _, .error e => .error e)
  | .BitXorInt dst a i =>
    binArm dst (match get_stack st a with
      | .ok v1 => exe_binop_int_i v1 i rustXorI
      | .error e => .error e)
  | .ShiftL dst a b =>
    binArm dst (match get_stack st a, get_stack st b with
      | .ok v1, .ok v2 => exe_binop_i v1 v2 rustShlI
      | .error e, _ => .error e
      | _, .error e => .error e)
  | .ShiftLConst dst a b =>
    binArm dst (match get_stack st a, kGet proto b with
      | .ok v1, .ok v2 => exe_binop_i v1 v2 rustShlI
      | .error e, _ => .error e
      | _, .error e => .error e)
  | .ShiftLInt dst a i =>
    binArm dst (match get_stack st a with
      | .ok v1 => exe_binop_int_i v1 i rustShlI
      | .error e => .error e)
  | .ShiftR dst a b =>
    binArm dst (match get_stack st a, get_stack st b with
      | .ok v1, .ok v2 => exe_binop_i v1 v2 rustShrI
      | .error e, _ => .error e
      | _, .error e => .error e)
  | .ShiftRConst dst a b =>
    binArm dst (match get_stack st a, kGet proto b with
      | .ok v1, .ok v2 => exe_binop_i v1 v2 rustShrI
      | .error e, _ => .error e
      | _, .error e => .error e)
  | .ShiftRInt dst a i =>
    binArm dst (match get_stack st a with
      | .ok v1 => exe_binop_int_i v1 i rustShrI
      | .error e => .error e)
  | .Equal a b r =>
    match get_stack st a, get_stack st b with
    | .ok v1, .ok v2 => cmpSkip ((valueEq FR v1 v2) = r)
    | .error e, _ => .error e
    | _, .error e => .error e
  | .EqualConst a b r =>
    match get_stack st a, kGet proto b with
    | .ok v1, .ok v2 => cmpSkip ((valueEq FR v1 v2) = r)
    | .error e, _ => .error e
    | _, .error e => .error e
  | .EqualInt a i r =>
    match get_stack st a with
    | .error e => .error e
    | .ok (.Integer ii) => cmpSkip ((decide (ii = i)) = r)
    | .ok _ => .ok (.next st pc)
  | .NotEq a b r =>
    match get_stack st a, get_stack st b with
    | .ok v1, .ok v2 => cmpSkip ((!(valueEq FR v1 v2)) = r)
    | .error e, _ => .error e
    | _, .error e => .error e
  | .NotEqConst a b r =>
    match get_stack st a, kGet proto b with
    | .ok v1, .ok v2 => cmpSkip ((!(valueEq FR v1 v2)) = r)
    | .error e, _ => .error e
    | _, .error e => .error e
  | .NotEqInt a i r =>
    match get_stack st a with
    | .error e => .error e
    | .ok (.Integer ii) => cmpSkip ((decide (ii ≠ i)) = r)
    | .ok _ => .ok (.next st pc)
  | .LesEq a b r =>
    match get_stack st a, get_stack st b with
    | .ok v1, .ok v2 =>
      match valueCmpOpt FR v1 v2 with
      | none => .error .rtErr
      | some cmp => cmpSkip ((!(decide (cmp = .gt))) = r)
    | .error e, _ => .error e
    | _, .error e => .error e
  | .LesEqConst a b r =>
    match get_stack st a, kGet proto b with
    | .ok v1, .ok v2 =>
      match valueCmpOpt FR v1 v2 with
      | none => .error .rtErr
      | some cmp => cmpSkip ((!(decide (cmp = .gt))) = r)
    | .error e, _ => .error e
    | _, .error e => .error e
  | .LesEqInt a i r =>
    match get_stack st a with
    | .error e => .error e
    | .ok v =>
      match cmpIntOperand v with
      | .error e => .error e
      | .ok av => cmpSkip ((decide (av ≤ i)) = r)
  | .GreEq a b r =>
    match get_stack st a, get_stack st b with
    | .ok v1, .ok v2 =>
      match valueCmpOpt FR v1 v2 with
      | none => .error .rtErr
      | some cmp => cmpSkip ((!(decide (cmp = .lt))) = r)
    | .error e, _ => .error e
    | _, .error e => .error e
  | .GreEqConst a b r =>
    match get_stack st a, kGet proto b with
    | .ok v1, .ok v2 =>
      match valueCmpOpt FR v1 v2 with
      | none => .error .rtErr
      | some cmp => cmpSkip ((!(decide (cmp = .lt))) = r)
    | .error e, _ => .error e
    | _, .error e => .error e
  | .GreEqInt a i r =>
    match get_stack st a with
    | .error e => .error e
    | .ok v =>
      match cmpIntOperand v with
      | .error e => .error e
      | .ok av => cmpSkip ((decide (av ≥ i)) = r)
  | .Less a b r =>
    match get_stack st a, get_stack st b with
    | .ok v1, .ok v2 =>
      match valueCmpOpt FR v1 v2 with
      | none => .error .rtErr
      | some cmp => cmpSkip ((decide (cmp = .lt)) = r)
    | .error e, _ => .error e
    | _, .error e => .error e
  | .LessConst a b r =>
    match get_stack st a, kGet proto b with
    | .ok v1, .ok v2 =>
      match valueCmpOpt FR v1 v2 with
      | none => .error .rtErr
      | some cmp => cmpSkip ((decide (cmp = .lt)) = r)
    | .error e, _ => .error e
    | _, .error e => .error e
  | .LessInt a i r =>
    match get_stack st a with
    | .error e => .error e
    | .ok v =>
      match cmpIntOperand v with
      | .error e => .error e
      | .ok av => cmpSkip ((decide (av < i)) = r)
  | .Greater a b r =>
    match get_stack st a, get_stack st b with
    | .ok v1, .ok v2 =>
      match valueCmpOpt FR v1 v2 with
      | none => .error .rtErr
      | some cmp => cmpSkip ((decide (cmp = .gt)) = r)
    | .error e, _ => .error e
    | _, .error e => .error e
  | .GreaterConst a b r =>
    match get_stack st a, kGet proto b with
    | .ok v1, .ok v2 =>
      match valueCmpOpt FR v1 v2 with
      | none => .error .rtErr
      | some cmp => cmpSkip ((decide (cmp = .gt)) = r)
    | .error e, _ => .error e
    | _, .error e => .error e
  | .GreaterInt a i r =>
    match get_stack st a with
    | .error e => .error e
    | .ok v =>
      match cmpIntOperand v with
      | .error e => .error e
      | .ok av => cmpSkip ((decide (av > i)) = r)
  | .SetFalseSkip dst => .ok (.next (set_stack st dst (.Boolean false)) (pc + 1))
  | .Concat dst a b =>
    binArm dst (match get_stack st a, get_stack st b with
      | .ok v1, .ok v2 => exe_concat FR v1 v2
      | .error e, _ => .error e
      | _, .error e => .error e)
  | .ConcatConst dst a b =>
    binArm dst (match get_stack st a, kGet proto b with
      | .ok v1, .ok v2 => exe_concat FR v1 v2
      | .error e, _ => .error e
      | _, .error e => .error e)
  | .ConcatInt dst a i =>
    binArm dst (match get_stack st a with
      | .ok v1 => exe_concat FR v1 (.Integer (i : Int))
      | .error e => .error e)

/-- The dispatch loop of `ExeState::execute` (vm.rs lines 53-617), with
fuel: one unit per dispatched instruction; a `Call`/`CallSet` recurses
into the callee's loop at one less fuel. -/
def runLoop (FR : FRound) : Nat → FuncProto → List Value → Nat → ExeState →
    Except Err (ExeState × Nat)
  | 0, _, _, _, _ => .error .fuelOut
  | Nat.succ fuel, proto, va, pc, st =>
    match proto.byte_codes.get? pc with
    | none => .error .rtErr
    | some bc =>
      match execInstr FR
          (fun p s =>
            match enterProto p s with
            | .error e => .error e
            | .ok pr => runLoop FR fuel p pr.1 0 pr.2)
          proto va bc pc st with
      | .error e => .error e
      | .ok (.ret st1 n) => .ok (st1, n)
      | .ok (.next st1 pc1) => runLoop FR fuel proto va (pc1 + 1) st1

/-- Embeds `ExeState::execute` (vm.rs lines 46-618): capture varargs,
then run the dispatch loop from `pc = 0`. -/
def executeE (FR : FRound) (fuel : Nat) (proto : FuncProto) (st : ExeState) :
    Except Err (ExeState × Nat) :=
  match enterProto proto st with
  | .error e => .error e
  | .ok pr => runLoop FR fuel proto pr.1 0 pr.2

/-- A callee executor that always fails; used to instantiate theorems
whose statements quantify over the executor. -/
def exec0 : FuncProto → ExeState → Except Err (ExeState × Nat) := fun _ _ => .error .rtErr

/-- An empty prototype for closed instantiations. -/
def proto0 : FuncProto := ⟨[], [], 0, false⟩

/-! ## Theorems — frame-base preservation infrastructure -/

theorem set_stack_base (st : ExeState) (d : Nat) (v : Value) :
    (set_stack st d v).base = st.base := rfl

theorem fill_stack_base (st : ExeState) (b n : Nat) :
    (fill_stack st b n).base = st.base := rfl

theorem setHeap_base (st : ExeState) (i : Nat) (t : Table) :
    (setHeap st i t).base = st.base := rfl

theorem varargsCopy_base (dst : Nat) (va : List Value) :
    ∀ (n idx : Nat) (st : ExeState), (varargsCopy st dst va idx n).base = st.base := by
  intro n
  induction n with
  | zero => intro idx st; rfl
  | succ k ih => intro idx st; simpa [varargsCopy] using ih (idx + 1) (set_stack st (dst + idx) (va.getD idx Value.Nil))

theorem set_table_int_base (FR : FRound) (st : ExeState) (t : Nat) (i : Int)
    (v : Value) (st' : ExeState) (h : set_table_int FR st t i v = .ok st') :
    st'.base = st.base := by
  unfold set_table_int at h
  repeat' split at h
  all_goals cases h
  all_goals rfl

theorem do_set_table_base (FR : FRound) (st : ExeState) (t : Nat) (k v : Value)
    (st' : ExeState) (h : do_set_table FR st t k v = .ok st') :
    st'.base = st.base := by
  unfold do_set_table at h
  repeat' split at h
  all_goals cases h
  all_goals rfl

theorem set_table_base (FR : FRound) (st : ExeState) (t : Nat) (k v : Value)
    (st' : ExeState) (h : set_table FR st t k v = .ok st') :
    st'.base = st.base := by
  unfold set_table at h
  split at h
  · exact set_table_int_base FR st t _ v st' h
  · exact do_set_table_base FR st t k v st' h

theorem make_float_base (FR : FRound) (st : ExeState) (d : Nat)
    (pr : ExeState × Rat) (h : make_float FR st d = .ok pr) :
    pr.1.base = st.base := by
  unfold make_float at h
  repeat' split at h
  all_goals cases h
  all_goals rfl

theorem callDispatch_base
    (exec : FuncProto → ExeState → Except Err (ExeState × Nat))
    (hexec : ∀ p s r, exec p s = .ok r → r.1.base = s.base)
    (st1 : ExeState) (nargE : Nat) (fv : Value) (stR : ExeState) (n : Nat)
    (h : callDispatch exec st1 nargE fv = .ok (stR, n)) :
    stR.base = st1.base := by
  unfold callDispatch at h
  split at h
  · rename_i f
    cases f
    cases h
    rfl
  · split at h
    · have := hexec _ _ _ h
      simpa [fill_stack_base] using this
    · exact hexec _ _ _ h
  · cases h

theorem call_function_base (FR : FRound)
    (exec : FuncProto → ExeState → Except Err (ExeState × Nat))
    (hexec : ∀ p s r, exec p s = .ok r → r.1.base = s.base)
    (st : ExeState) (func narg : Nat) (pr' : ExeState × Nat)
    (h : call_function FR exec st func narg = .ok pr') :
    pr'.1.base = st.base := by
  unfold call_function at h
  split at h
  · cases h
  · split at h <;>
      (dsimp only at h
       split at h
       · cases h
       · rename_i pr hinner
         cases h
         have hR := callDispatch_base exec hexec _ _ _ _ _ (by rw [hinner])
         simp only [restoreBase]
         simp [hR])

set_option maxHeartbeats 4000000 in
/-- Every single dispatched instruction leaves `base` where it found it —
in its result state, whether it continues (`Step.next`) or returns
(`Step.ret`) — provided the recursive executor does (`hexec`; discharged
for the real executor by `runLoop_base`/`executeE_base` below). -/
theorem execInstr_base (FR : FRound)
    (exec : FuncProto → ExeState → Except Err (ExeState × Nat))
    (hexec : ∀ p s r, exec p s = .ok r → r.1.base = s.base)
    (proto : FuncProto) (va : List Value) (bc : ByteCode) (pc : Nat)
    (st : ExeState) (s : Step)
    (h : execInstr FR exec proto va bc pc st = .ok s) :
    s.state.base = st.base := by
  cases bc <;>
    (simp only [execInstr] at h
     repeat' split at h
     all_goals cases h
     all_goals try simp [Step.state, set_stack_base, fill_stack_base, setHeap_base,
       varargsCopy_base]
     all_goals
       (first
         | rfl
         | exact call_function_base FR exec hexec _ _ _ _ (by assumption)
         | exact set_table_int_base _ _ _ _ _ _ (by assumption)
         | exact set_table_base _ _ _ _ _ _ (by assumption)
         | exact do_set_table_base _ _ _ _ _ _ (by assumption)
         | exact make_float_base _ _ _ _ (by assumption)
         | exact (make_float_base _ _ _ _ (by assumption)).trans
             ((make_float_base _ _ _ _ (by assumption)).trans
               (make_float_base _ _ _ _ (by assumption)))))

theorem enterProto_base (p : FuncProto) (s : ExeState) (pr : List Value × ExeState)
    (h : enterProto p s = .ok pr) : pr.2.base = s.base := by
  unfold enterProto at h
  dsimp only at h
  repeat' split at h
  all_goals cases h
  all_goals rfl

theorem runLoop_base (FR : FRound) :
    ∀ (fuel : Nat) (proto : FuncProto) (va : List Value) (pc : Nat)
      (st : ExeState) (pr : ExeState × Nat),
      runLoop FR fuel proto va pc st = .ok pr → pr.1.base = st.base := by
  intro fuel
  induction fuel with
  | zero =>
    intro proto va pc st pr h
    simp [runLoop] at h
  | succ k ih =>
    intro proto va pc st pr h
    have hexec : ∀ (p : FuncProto) (s : ExeState) (r : ExeState × Nat),
        (match enterProto p s with
          | .error e => (Except.error e : Except Err (ExeState × Nat))
          | .ok pr2 => runLoop FR k p pr2.1 0 pr2.2) = Except.ok r →
        r.1.base = s.base := by
      intro p s r hr
      split at hr
      · cases hr
      · rename_i pr2 hp
        exact (ih p pr2.1 0 pr2.2 r hr).trans (enterProto_base p s pr2 hp)
    rw [runLoop] at h
    split at h
    · cases h
    · rename_i bc hbc
      split at h
      · cases h
      · rename_i st1 n hstep
        cases h
        exact execInstr_base FR _ hexec proto va bc pc st _ hstep
      · rename_i st1 pc1 hstep
        exact (ih proto va (pc1 + 1) st1 pr h).trans
          (execInstr_base FR _ hexec proto va bc pc st _ hstep)

theorem executeE_base (FR : FRound) (fuel : Nat) (proto : FuncProto)
    (st : ExeState) (pr : ExeState × Nat)
    (h : executeE FR fuel proto st = .ok pr) : pr.1.base = st.base := by
  unfold executeE at h
  split at h
  · cases h
  · rename_i pr2 hp
    exact (runLoop_base FR fuel proto pr2.1 0 pr2.2 pr h).trans
      (enterProto_base proto st pr2 hp)

/-! ## Theorems — numeric helpers -/

theorem wrap64_eq_self (x : Int) (h1 : minI64 ≤ x) (h2 : x ≤ maxI64) :
    wrap64 x = x := by
  unfold wrap64
  simp only [minI64, maxI64, two63, two64] at *
  omega

theorem ratFloorI_eq_floor (q : Rat) : ratFloorI q = ⌊q⌋ := by
  rw [Rat.floor_def, ratFloorI, Int.fdiv_eq_ediv _ (by positivity)]

theorem ratCeilI_eq_ceil (q : Rat) : ratCeilI q = ⌈q⌉ := by
  have hq : ratCeilI q = -(ratFloorI (-q)) := by
    unfold ratCeilI ratFloorI
    simp
  rw [hq, ratFloorI_eq_floor, Int.floor_neg]
  simp

theorem tmod_nonpos (a b : Int) (h : a ≤ 0) : a.tmod b ≤ 0 := by
  cases a with
  | ofNat m =>
    have hm : m = 0 := by
      simp only [Int.ofNat_eq_natCast] at h
      omega
    subst hm
    simp
  | negSucc m =>
    cases b with
    | ofNat n =>
      simp only [Int.tmod, Int.ofNat_eq_natCast]
      omega
    | negSucc n =>
      simp only [Int.tmod, Int.ofNat_eq_natCast]
      omega

theorem forLoopStepInt_of_exact (i limit step : Int) (h1 : minI64 ≤ i + step)
    (h2 : i + step ≤ maxI64) (hpos : 0 < step) :
    forLoopStepInt i limit step =
      if i + step ≤ limit then some (i + step) else none := by
  unfold forLoopStepInt for_check
  rw [wrap64_eq_self _ h1 h2]
  simp [hpos]

theorem forLoopRun_exits (limit step : Int) (hstep : 1 ≤ step)
    (hlim : limit ≤ maxI64 - step) :
    ∀ (n : Nat) (i : Int), minI64 ≤ i → i ≤ limit → (limit - i).toNat < n →
      forLoopRun n i limit step = true := by
  intro n
  induction n with
  | zero => intro i _ _ h3; omega
  | succ k ih =>
    intro i h1 h2 h3
    rw [forLoopRun]
    rw [forLoopStepInt_of_exact i limit step (by omega) (by omega) (by omega)]
    by_cases hle : i + step ≤ limit
    · rw [if_pos hle]
      exact ih (i + step) (by omega) hle (by omega)
    · rw [if_neg hle]

/-! ## C6 — `for_int_limit` / `for_check` -/

/-- C6 counterexample: the claim says that with a positive step and
`limit ≥ i64::MIN as f64` the function "returns floor(limit)", but at
`limit = 2^63` (an exactly representable f64) the code returns the
saturated cast `i64::MAX = 2^63 - 1`, not `floor(limit) = 2^63`. -/
theorem c6_counterexample :
    for_int_limit ((two63 : Int) : Rat) true 5 = (maxI64, 5) ∧
    ratFloorI ((two63 : Int) : Rat) = two63 ∧ ¬ (maxI64 = two63) := by
  refine ⟨by decide, by decide, by decide⟩

/-- C6 (amended): `for_int_limit(limit, positive, i)` behaves as claimed
except that the floor/ceiling is saturated into the i64 range by the
`as i64` cast: with positive step, if `limit < i64::MIN as f64` it sets
`i := 0` and returns `-1` (and `for_check` then fails, so the loop cannot
run and no integer overflow occurs); otherwise it returns
`satI64 (floor limit)`, which equals `floor limit` whenever that fits in
i64.  With negative step, if `limit > i64::MAX as f64` it sets `i := 0`
and returns `1` (and `for_check` fails); otherwise it returns
`satI64 (ceil limit)`, which equals `ceil limit` whenever that fits.
`for_check(i, limit, positive)` is `i ≤ limit` if positive else
`i ≥ limit`. -/
theorem c6_for_int_limit_behaviour (limit : Rat) (i : Int) :
    (limit < ((minI64 : Int) : Rat) →
      for_int_limit limit true i = (-1, 0) ∧
      for_check (for_int_limit limit true i).2 (for_int_limit limit true i).1 true
        = false) ∧
    (¬ limit < ((minI64 : Int) : Rat) →
      for_int_limit limit true i = (satI64 (ratFloorI limit), i) ∧
      (ratFloorI limit ≤ maxI64 → for_int_limit limit true i = (ratFloorI limit, i))) ∧
    (((two63 : Int) : Rat) < limit →
      for_int_limit limit false i = (1, 0) ∧
      for_check (for_int_limit limit false i).2 (for_int_limit limit false i).1 false
        = false) ∧
    (¬ ((two63 : Int) : Rat) < limit →
      for_int_limit limit false i = (satI64 (ratCeilI limit), i) ∧
      (minI64 ≤ ratCeilI limit ∧ ratCeilI limit ≤ maxI64 →
        for_int_limit limit false i = (ratCeilI limit, i))) ∧
    (∀ a b : Int, for_check a b true = decide (a ≤ b) ∧
      for_check a b false = decide (b ≤ a)) := by
  refine ⟨?_, ?_, ?_, ?_, ?_⟩
  · intro h
    refine ⟨by simp [for_int_limit, h], ?_⟩
    simp [for_int_limit, h, for_check]
  · intro h
    have he : for_int_limit limit true i = (satI64 (ratFloorI limit), i) := by
      simp [for_int_limit, h]
    refine ⟨he, ?_⟩
    intro hfit
    have hlo : minI64 ≤ ratFloorI limit := by
      rw [ratFloorI_eq_floor]
      rw [Int.le_floor]
      exact not_lt.mp h
    have hs : satI64 (ratFloorI limit) = ratFloorI limit := by
      unfold satI64
      omega
    rw [he, hs]
  · intro h
    refine ⟨by simp [for_int_limit, h], ?_⟩
    simp [for_int_limit, h, for_check]
  · intro h
    have he : for_int_limit limit false i = (satI64 (ratCeilI limit), i) := by
      simp [for_int_limit, h]
    refine ⟨he, ?_⟩
    intro hfit
    have hs : satI64 (ratCeilI limit) = ratCeilI limit := by
      unfold satI64
      omega
    rw [he, hs]
  · intro a b
    exact ⟨rfl, rfl⟩

/-- C6 witness: concrete instantiation at `limit = 3.5`, `i = 1`: the
limit is not below `i64::MIN`, `floor(3.5) = 3` fits, so the clamped
limit is `3` and `i` is untouched. -/
theorem c6_for_int_limit_behaviour_witness :
    for_int_limit (mkRat 7 2) true 1 = (ratFloorI (mkRat 7 2), 1) ∧
    ratFloorI (mkRat 7 2) = 3 := by
  refine ⟨((c6_for_int_limit_behaviour (mkRat 7 2) 1).2.1 (by decide)).2 (by decide),
    by decide⟩

/-! ## C7 — termination of the clamped integer for loop -/

/-- C7 counterexample: `for i = 1, 1e100` (any float limit ≥ 2^63, here
the exactly representable `2^64`) clamps the limit to `i64::MAX`; once the
counter reaches the clamped limit, the next `ForLoop` does *not* exit:
`i + step` wraps around to `i64::MIN` (an overflow panic under a
debug-profile build) and `for_check` succeeds again, so the loop
re-enters instead of terminating there. -/
theorem c7_counterexample :
    for_int_limit ((two64 : Int) : Rat) true 1 = (maxI64, 1) ∧
    forLoopStepInt maxI64 maxI64 1 = some minI64 ∧
    for_check minI64 maxI64 true = true := by
  refine ⟨by decide, by decide, by decide⟩

/-- C7 (amended): the integer `ForLoop` iteration does terminate without
overflow provided the (clamped) limit leaves head-room for one step:
whenever `1 ≤ step` and `limit ≤ i64::MAX - step`, iterating the
`ForLoop` back-edge from any `i ≤ limit` exits within `limit - i + 1`
iterations.  (For `for i = 1, 1e100` the clamped limit is exactly
`i64::MAX`, the head-room condition fails, and the loop overflows at the
boundary — see the counterexample.) -/
theorem c7_forloop_terminates (i limit step : Int) (hstep : 1 ≤ step)
    (hi0 : minI64 ≤ i) (hil : i ≤ limit) (hlim : limit ≤ maxI64 - step) :
    forLoopRun ((limit - i).toNat + 1) i limit step = true :=
  forLoopRun_exits limit step hstep hlim ((limit - i).toNat + 1) i hi0 hil
    (by omega)

/-- C7 witness: the loop `for i = 1, 10, 3` exits within 10 iterations. -/
theorem c7_forloop_terminates_witness : forLoopRun 10 1 10 3 = true := by
  have h := c7_forloop_terminates 1 10 3 (by decide) (by decide) (by decide)
    (by decide)
  simpa using h

/-! ## C2 — `Mod` and `Idiv` on integer operands -/

/-- C2 counterexample: at `a = -5`, `b = 3` the `Mod` kernel produces
`-2` (Rust's `%`, truncated remainder, sign of the dividend), not the
mathematical modulo `(-5) fmod 3 = 1` (sign of the divisor); and the
`Idiv` kernel produces `-1` (truncation toward zero), not the floor
division `(-5) fdiv 3 = -2`. -/
theorem c2_counterexample :
    exe_binop FR0 (.Integer (-5)) (.Integer 3) rustModI FR0.fmod
      = .ok (.Integer (-2)) ∧
    Int.fmod (-5) 3 = 1 ∧ ¬ ((-2 : Int) = 1) ∧
    exe_binop FR0 (.Integer (-5)) (.Integer 3) rustDivI FR0.fdiv
      = .ok (.Integer (-1)) ∧
    Int.fdiv (-5) 3 = -2 ∧ ¬ ((-1 : Int) = -2) := by
  exact ⟨rfl, by decide, by decide, rfl, by decide, by decide⟩

/-- C2 (amended): for integer operands with `b ≠ 0` and
`(a, b) ≠ (i64::MIN, -1)`, the `Mod` instruction (and its `Const`/`Int`
variants, which use the same kernels) produces Rust's *truncated*
remainder `a.tmod b` — whose sign follows the *dividend*, not the
divisor — and `Idiv` produces division *truncated toward zero*
(`a.tdiv b`), not floor division; at `(i64::MIN, -1)` both panic. -/
theorem c2_mod_idiv_truncated (FR : FRound) (a b : Int) (i2 : Nat)
    (hb : b ≠ 0) (hmin : ¬ (a = minI64 ∧ b = -1)) (hi2 : i2 ≠ 0) :
    exe_binop FR (.Integer a) (.Integer b) rustModI FR.fmod
      = .ok (.Integer (a.tmod b)) ∧
    exe_binop FR (.Integer a) (.Integer b) rustDivI FR.fdiv
      = .ok (.Integer (a.tdiv b)) ∧
    (0 ≤ a → 0 ≤ a.tmod b) ∧ (a ≤ 0 → a.tmod b ≤ 0) ∧
    exe_binop_int FR (.Integer a) i2 rustModI FR.fmod
      = .ok (.Integer (a.tmod (i2 : Int))) ∧
    exe_binop_int FR (.Integer a) i2 rustDivI FR.fdiv
      = .ok (.Integer (a.tdiv (i2 : Int))) ∧
    exe_binop FR (.Integer minI64) (.Integer (-1)) rustModI FR.fmod
      = .error .rtErr ∧
    exe_binop FR (.Integer minI64) (.Integer (-1)) rustDivI FR.fdiv
      = .error .rtErr := by
  have hcond : ¬ (b = 0 ∨ (a = minI64 ∧ b = -1)) := by tauto
  have hcondi : ¬ ((i2 : Int) = 0 ∨ (a = minI64 ∧ (i2 : Int) = -1)) := by
    push_neg
    constructor
    · exact_mod_cast hi2
    · intro _
      omega
  refine ⟨?_, ?_, fun ha => Int.tmod_nonneg b ha, fun ha => tmod_nonpos a b ha,
    ?_, ?_, ?_, ?_⟩
  · simp [exe_binop, rustModI, hcond]
  · simp [exe_binop, rustDivI, hcond]
  · simp [exe_binop_int, rustModI, hcondi, hi2]
  · simp [exe_binop_int, rustDivI, hcondi, hi2]
  · simp [exe_binop, rustModI]
  · simp [exe_binop, rustDivI]

/-- C2 witness: the amended statement instantiated at `a = -5`, `b = 3`,
`i2 = 3`. -/
theorem c2_mod_idiv_truncated_witness :
    exe_binop FR0 (.Integer (-5)) (.Integer 3) rustModI FR0.fmod
      = .ok (.Integer (Int.tmod (-5) 3)) ∧
    exe_binop_int FR0 (.Integer (-5)) 3 rustDivI FR0.fdiv
      = .ok (.Integer (Int.tdiv (-5) 3)) := by
  have h := c2_mod_idiv_truncated FR0 (-5) 3 3 (by decide) (by decide) (by decide)
  exact ⟨h.1, h.2.2.2.2.2.1⟩

/-! ## C3 — comparison instructions with `*Int` immediate variants -/

theorem set_vec_get (l : List Value) (n : Nat) (v : Value) :
    (set_vec l n v).get? n = some v := by
  unfold set_vec
  by_cases h1 : n < l.length
  · rw [if_pos h1, List.get?_eq_getElem?, List.getElem?_set_self]
    simp [List.getElem?_eq_getElem, h1]
  · rw [if_neg h1]
    by_cases h2 : n = l.length
    · rw [if_pos h2, h2]
      rw [List.get?_eq_getElem?, List.getElem?_append_right (le_refl _)]
      simp
    · rw [if_neg h2]
      have hge : (l ++ List.replicate (n - l.length) Value.Nil).length ≤ n := by
        simp
        omega
      rw [List.get?_eq_getElem?, List.getElem?_append_right hge]
      have hz : n - (l ++ List.replicate (n - l.length) Value.Nil).length = 0 := by
        simp
        omega
      rw [hz]
      rfl

theorem valueEq_int_refl (FR : FRound) (i : Int) :
    valueEq FR (.Integer i) (.Integer i) = true := by
  simp [valueEq]

theorem mapLookup_mapInsert (FR : FRound) (m : List (Value × Value))
    (k v : Value) (hk : valueEq FR k k = true) :
    mapLookup FR (mapInsert FR m k v) k = some v := by
  induction m with
  | nil => simp [mapInsert, mapLookup, hk]
  | cons p rest ih =>
    by_cases h0 : valueEq FR p.1 k = true
    · simp [mapInsert, mapLookup, h0]
    · simp [mapInsert, mapLookup, h0, ih]

theorem capTimes2_eq (cap : Nat) (h : (cap : Int) < 2 ^ 62) :
    capTimes2 cap = (cap : Int) * 2 := by
  unfold capTimes2
  rw [wrap64_eq_self (cap : Int) (by simp only [minI64, two63]; omega)
      (by simp only [maxI64, two63]; omega)]
  rw [wrap64_eq_self _ (by simp only [minI64, two63]; omega)
      (by simp only [maxI64, two63]; omega)]

/-- C8: an integer-key table write places the value in the array part iff
`i > 0` and (`i < 4` or `i < 2·C`) where `C` is the array part's current
capacity (in which case the map part is untouched and the array reads
back the value at index `i - 1`); otherwise it inserts the value into the
map part under the key `Integer(i)` (and the array part is untouched).
The side condition bounds the capacity so that the `capacity() as i64 * 2`
computation does not wrap (Rust `Vec` capacities cannot reach `2^62` for
multi-byte elements). -/
theorem c8_set_table_int_placement (FR : FRound) (tbl : Table) (i : Int)
    (v : Value) (hcap : (tbl.cap : Int) < 2 ^ 62) :
    (0 < i ∧ (i < 4 ∨ i < (tbl.cap : Int) * 2) →
      (tableSetInt FR tbl i v).map = tbl.map ∧
      (tableSetInt FR tbl i v).array.get? (i - 1).toNat = some v) ∧
    (¬ (0 < i ∧ (i < 4 ∨ i < (tbl.cap : Int) * 2)) →
      (tableSetInt FR tbl i v).array = tbl.array ∧
      mapLookup FR (tableSetInt FR tbl i v).map (.Integer i) = some v) := by
  have hc2 := capTimes2_eq tbl.cap hcap
  constructor
  · intro hcond
    have hif : (0 < i ∧ (i < 4 ∨ i < capTimes2 tbl.cap)) := by rw [hc2]; exact hcond
    unfold tableSetInt
    rw [if_pos hif]
    exact ⟨rfl, set_vec_get tbl.array (i - 1).toNat v⟩
  · intro hcond
    have hif : ¬ (0 < i ∧ (i < 4 ∨ i < capTimes2 tbl.cap)) := by rw [hc2]; exact hcond
    unfold tableSetInt
    rw [if_neg hif]
    exact ⟨rfl, mapLookup_mapInsert FR tbl.map _ v (valueEq_int_refl FR i)⟩

/-- C8 witness: writing `t[2] = 5` into a table whose array part is
`[10]` with capacity 1 lands in the array part (`2 < 4`), at index 1. -/
theorem c8_set_table_int_placement_witness :
    (tableSetInt FR0 ⟨[.Integer 10], 1, []⟩ 2 (.Integer 5)).map = [] ∧
    (tableSetInt FR0 ⟨[.Integer 10], 1, []⟩ 2 (.Integer 5)).array.get? 1
      = some (.Integer 5) := by
  have h := (c8_set_table_int_placement FR0 ⟨[.Integer 10], 1, []⟩ 2 (.Integer 5)
    (by decide)).1 (by constructor <;> decide)
  exact ⟨h.1, h.2⟩

/-! ## C10 — integer-key table reads with non-positive keys -/

/-- C10: a table read with an integer key `i ≤ 0` computes the array
index `i as usize - 1` in wrapping (release-profile) unsigned arithmetic;
the result is at least `2^63 - 1`, which is outside any `Vec` (lengths
are bounded by `isize::MAX`, the hypothesis `hlen`), so the array lookup
never succeeds and the read falls through to the map part (then `Nil`),
without a panic; and the dynamic-key path `get_table` routes an `Integer`
key to `get_table_int`.  (Under a debug build the `i = 0` case would
instead panic on the `0usize - 1` overflow check; the claim stipulates
the wrapping semantics, which this embedding models.) -/
theorem c10_get_table_int_nonpositive (FR : FRound) (tbl : Table) (i : Int)
    (hi : i ≤ 0) (himin : minI64 ≤ i)
    (hlen : (tbl.array.length : Int) ≤ maxI64) :
    tbl.array.get? (usizeSubWrap (intAsUsize i) 1) = none ∧
    tableGetInt FR tbl i = (mapLookup FR tbl.map (.Integer i)).getD Value.Nil ∧
    (∀ (st : ExeState) (t : Nat),
      get_table FR st t (.Integer i) = get_table_int FR st t i) := by
  have hidx : tbl.array.length ≤ usizeSubWrap (intAsUsize i) 1 := by
    unfold usizeSubWrap intAsUsize
    simp only [two64, minI64, two63, maxI64] at *
    omega
  have hnone : tbl.array.get? (usizeSubWrap (intAsUsize i) 1) = none :=
    List.get?_eq_none.mpr hidx
  refine ⟨hnone, ?_, fun st t => rfl⟩
  unfold tableGetInt
  rw [hnone]
  cases mapLookup FR tbl.map (.Integer i) <;> rfl

/-- C10 witness: reading key `0` from a table with array part `[10]` and
a map entry for `Integer 0` returns the map entry, not an array hit and
not a panic. -/
theorem c10_get_table_int_nonpositive_witness :
    tableGetInt FR0 ⟨[.Integer 10], 1, [(.Integer 0, .Integer 7)]⟩ 0
      = .Integer 7 := by
  have h := (c10_get_table_int_nonpositive FR0
    ⟨[.Integer 10], 1, [(.Integer 0, .Integer 7)]⟩ 0 (by decide) (by decide)
    (by decide)).2.1
  rw [h]
  rfl

/-! ## C1 — `Return` with `nret == MULTRET` -/

/-- C1: `execute` dispatching `Return(0, MULTRET)` on a frame with
`base = 1` and two return values on top of the stack (so the actual count
`len(stack) - (base + iret)` is 2) exits returning `nret as usize = 255`,
the `MULTRET` sentinel itself, not the actual count — contradicting both
the claim and `call_function`'s contract ("return the number of return
values which are at the stack end"); the `Call` arm then computes
`stack.len() - 255`, which underflows. -/
theorem c1_return_multret_sentinel :
    executeE FR0 2 ⟨[.Return 0 MULTRET], [], 0, false⟩
        ⟨[], [.Str "E", .Integer 10, .Integer 20], 1, []⟩
      = .ok (⟨[], [.Str "E", .Integer 10, .Integer 20], 1, []⟩, MULTRET) ∧
    [Value.Str "E", Value.Integer 10, Value.Integer 20].length - (1 + 0) = 2 ∧
    ¬ (MULTRET = 2) := by
  exact ⟨rfl, rfl, by decide⟩

/-! ## C4 — `Call` return-value padding -/

/-- C4: a `Call(func = 1, narg = 0, want_nret = 2)` whose callee returns
the single value `Integer 9`: after the instruction the stack is
`[E, Integer 7, Nil]` — the `fill_stack(nret, want_nret - nret)` call
Nil-fills starting at `base + nret` (frame-relative `nret`, not
`func + nret`), overwriting the return value that the preceding drain had
just moved to `base + func`, and no slot `base + func + 1` is created —
instead of the claimed `[E, Integer 7, Integer 9, Nil]` with the return
value at `old_base + func` and `Nil` padding after it. -/
theorem c4_call_pads_at_wrong_offset :
    execInstr FR0 (executeE FR0 3) proto0 [] (.Call 1 0 2) 0
        ⟨[], [.Str "E", .Integer 7,
              .LuaFunction [.LoadInt 0 9, .Return 0 1] [] 0 false], 1, []⟩
      = .ok (.next ⟨[], [.Str "E", .Integer 7, .Nil], 1, []⟩ 0) ∧
    ¬ ([Value.Str "E", Value.Integer 7, Value.Nil]
        = [Value.Str "E", Value.Integer 7, Value.Integer 9, Value.Nil]) ∧
    ¬ ([Value.Str "E", Value.Integer 7, Value.Nil].get? 2
        = some (Value.Integer 9)) := by
  refine ⟨rfl, by simp, by simp⟩

/-! ## C5 — `fill_stack` over-fills up to the stack top -/

/-- C5: `fill_stack(begin = 0, num = 1)` on a frame with `base = 1` and
stack `[f, Integer 1, Integer 2]` must write `Nil` exactly into register
0 (absolute slot 1); but the code fills `stack[begin .. len]` whenever
`begin < len`, so register 1 (absolute slot 2) — outside
`[begin, begin+num)` — is clobbered to `Nil` as well, instead of keeping
its value `Integer 2`. -/
theorem c5_fill_stack_overfills :
    fill_stack ⟨[], [.Str "f", .Integer 1, .Integer 2], 1, []⟩ 0 1
      = ⟨[], [.Str "f", .Nil, .Nil], 1, []⟩ ∧
    (fill_stack ⟨[], [.Str "f", .Integer 1, .Integer 2], 1, []⟩ 0 1).stack.get? 2
      = some Value.Nil ∧
    ¬ (some Value.Nil = some (Value.Integer 2)) := by
  refine ⟨rfl, rfl, by simp⟩

/-! ## C9 — the frame base is preserved by every instruction -/

/-- C9: for every instruction the dispatch loop executes — every
instruction whose result continues the loop (`Step.next`), which is every
instruction except `Return` — the frame base after the instruction equals
the base before it; in particular `Call` and `CallSet`, which temporarily
set `base := base + func + 1` inside `call_function`, have restored it by
the time the instruction completes.  `hexec` is the same property of the
recursive executor used for callees; `executeE_base` proves it for the
real executor at every fuel. -/
theorem c9_base_preserved (FR : FRound)
    (exec : FuncProto → ExeState → Except Err (ExeState × Nat))
    (hexec : ∀ p s r, exec p s = .ok r → r.1.base = s.base)
    (proto : FuncProto) (va : List Value) (bc : ByteCode) (pc : Nat)
    (st st' : ExeState) (pc' : Nat)
    (h : execInstr FR exec proto va bc pc st = .ok (.next st' pc')) :
    st'.base = st.base :=
  execInstr_base FR exec hexec proto va bc pc st _ h

/-- C9 witness: a concrete `Move` instruction on a frame with `base = 1`
leaves the base at 1 (the executor argument is the always-failing
`exec0`, whose preservation property holds vacuously). -/
theorem c9_base_preserved_witness :
    (⟨[], [Value.Str "E", Value.Integer 4, Value.Integer 4], 1, []⟩ : ExeState).base
      = (⟨[], [Value.Str "E", Value.Integer 4], 1, []⟩ : ExeState).base :=
  c9_base_preserved FR0 exec0 (fun _ _ _ h => nomatch h) proto0 []
    (.Move 1 0) 0 ⟨[], [Value.Str "E", Value.Integer 4], 1, []⟩
    ⟨[], [Value.Str "E", Value.Integer 4, Value.Integer 4], 1, []⟩ 0 rfl

end LuaVM
